import Mathlib

/-!
# Mini-Shell: the command evaluator of `src/cmd.c`

A shallow embedding of the execution engine (`parse_command`, `parse_simple`,
`run_in_parallel`, `run_on_pipe`, `get_path`, `shell_cd`, ...) together with the
properties of its specification.

Conventions of the embedding

* A C pointer that may be `NULL` is an inductive with a `null` constructor
  (`WordPtr`, `CommandPtr`) or an `Option` (`CStr`, a `char *`). A string
  stands for the bytes before the terminator of a C string.
* Undefined behaviour of the C program (dereferencing `NULL`, writing past a
  fixed buffer) is the result `none` of a helper, or `Outcome.undefined`.
* The operating system is a record of oracles (`World`) read at the current
  `State`; the state carries the process environment, the working directory
  and the log of system calls made so far.
* `fork` is modelled by running the child on a copy of the state: what the
  child does to the environment and working directory is lost, what it appends
  to the system-call log is kept. The two children of `run_in_parallel` and
  `run_on_pipe` are run one after the other. `fork` and `pipe` are assumed to
  succeed, and a child is assumed to terminate normally.
* A block fresh from `malloc` holds whatever bytes the allocator left in it:
  the oracle `fresh` of the `World` gives the bytes before its first `NUL`, and
  the first `strcat` into the block appends after them. Allocation is assumed
  to succeed, and a block is taken to be large enough for what is appended.
* The arguments `level` and `father` of the C functions are never read by the
  code and are left out.
-/

namespace MiniShell

/-! ## Data model (declarations of `parser.h`) -/

/-- A C string pointer: `none` is `NULL`. -/
abbrev CStr := Option String

/-- Modelled from the spec: the type `word_t` of the header `parser.h`, which is
not part of the sources; a pointer to a fragment holding a string, the flag
"is a variable reference", and the two links `next_part` and `next_word`. -/
inductive WordPtr where
  | null : WordPtr
  | node (string : CStr) (expand : Bool) (next_part : WordPtr) (next_word : WordPtr) : WordPtr
  deriving DecidableEq, Repr

/-- Modelled from the spec: the type `simple_command_t` of `parser.h`; the field
`in` of the C structure is written `in_`. -/
structure simple_command_t where
  verb : WordPtr
  params : WordPtr
  in_ : WordPtr
  out : WordPtr
  err : WordPtr
  io_flags : Int
  deriving DecidableEq, Repr

/-- Modelled from the spec: the operator tag `operator_t` of `parser.h`;
`OP_OTHER` stands for any tag outside the six named ones. -/
inductive operator_t where
  | OP_NONE
  | OP_SEQUENTIAL
  | OP_PARALLEL
  | OP_CONDITIONAL_NZERO
  | OP_CONDITIONAL_ZERO
  | OP_PIPE
  | OP_OTHER
  deriving DecidableEq, Repr

/-- Modelled from the spec: the type `command_t` of `parser.h`, as a pointer
(`null` is `NULL`); `scmd` may be `NULL` as well. -/
inductive CommandPtr where
  | null : CommandPtr
  | node (op : operator_t) (scmd : Option simple_command_t)
      (cmd1 : CommandPtr) (cmd2 : CommandPtr) : CommandPtr
  deriving Repr

/-- Modelled from the spec: the constants of the headers `parser.h` and `cmd.h`
that `cmd.c` names, taken as parameters. -/
structure Header where
  IO_OUT_APPEND : Int
  IO_ERR_APPEND : Int
  SHELL_EXIT : Int

/-! ## Process environment -/

/-- The process environment, as the array `environ`: the entries `NAME=value`
in order. -/
abbrev Env := List String

/-- The rest of an entry after `name=`, when the entry starts with the
characters of `name` followed by `=`. -/
def after_name : List Char → List Char → Option (List Char)
  | [], [] => none
  | [], c :: rest => if c = '=' then some rest else none
  | _ :: _, [] => none
  | a :: name, c :: rest => if a = c then after_name name rest else none

/-- The value of an entry of `environ` for `name`: `none` when the entry is not
`name=...`. -/
def entry_value (name entry : String) : CStr :=
  (after_name name.data entry.data).map String.mk

/-- Library call `getenv` (as in glibc): `NULL` for the empty name, else what
follows `name=` in the first entry that starts so. -/
def getenv : Env → String → CStr
  | [], _ => none
  | entry :: rest, name =>
      if name = "" then none
      else
        match entry_value name entry with
        | some value => some value
        | none => getenv rest name

/-- The names `setenv` accepts: not empty and without `=`. -/
def valid_name (name : String) : Bool :=
  decide (name ≠ "") && !(name.data.contains '=')

/-- The array `environ` after a successful `setenv(name, value, 1)`: the first
entry `name=...` is replaced, or a new entry is added at the end. -/
def environ_put : Env → String → String → Env
  | [], name, value => [name ++ "=" ++ value]
  | entry :: rest, name, value =>
      if (entry_value name entry).isSome then (name ++ "=" ++ value) :: rest
      else entry :: environ_put rest name value

/-- Library call `setenv(name, value, 1)`: the value returned and the
environment afterwards; it fails with `EINVAL`, leaving the environment as it
is, when the name is empty or contains `=`. -/
def setenv (env : Env) (name value : String) : Int × Env :=
  if valid_name name then (0, environ_put env name value) else (-1, env)

/-- Library call `strlen`: the number of bytes before the terminator. -/
def strlen (s : String) : Nat := s.utf8ByteSize

/-! ## Word expansion: `get_path`, `adjust_params_expand`, `adjust_params` -/

/-- The `while (parts)` loop that each of the three branches of `get_path` runs:
`path` is the buffer built so far (`NULL` at first), `none` is undefined
behaviour (a fragment whose string is `NULL`). `fresh` is what the block that
`malloc` returns holds before its first `NUL`: the code does not clear the
block, so the first `strcat` appends after these bytes. -/
def get_path_loop (fresh : String) (env : Env) : WordPtr → CStr → Option CStr
  | .null, path => some path
  | .node string expand next_part _, path =>
      if expand then
        match string with
        | none => none
        | some name =>
            match getenv env name with
            | some value =>
                match path with
                | none => get_path_loop fresh env next_part (some (fresh ++ value))
                | some p => get_path_loop fresh env next_part (some (p ++ value))
            | none =>
                match path with
                | none => get_path_loop fresh env next_part (some (fresh ++ ""))
                | some p => get_path_loop fresh env next_part (some (p ++ ""))
      else
        match string with
        | none => none
        | some text =>
            match path with
            | none => get_path_loop fresh env next_part (some (fresh ++ text))
            | some p => get_path_loop fresh env next_part (some (p ++ text))

/-- Function `get_path`: the path of the input, output or error file of `s`;
`fresh` is what the block that its `malloc` returns holds. -/
def get_path (fresh : String) (env : Env) (s : simple_command_t) (type : String) :
    Option CStr :=
  if type = "out" then get_path_loop fresh env s.out none
  else if type = "err" then get_path_loop fresh env s.err none
  else if type = "in" then get_path_loop fresh env s.in_ none
  else some none

/-- Function `adjust_params_expand`; `slot` is `params[len]`, and `fresh` is
what the block that `malloc` returns for it holds before its first `NUL`. -/
def adjust_params_expand (fresh : String) (value : CStr) (slot : CStr) : CStr :=
  match value with
  | some v =>
      match slot with
      | none => some (fresh ++ v)
      | some p => some (p ++ v)
  | none =>
      match slot with
      | none => some (fresh ++ "")
      | some p => some (p ++ "")

/-- Function `adjust_params`; `slot` is `params[len]`, `fresh` is what the
block that `malloc` returns for it holds before its first `NUL`, and a `NULL`
string in the fragment is undefined behaviour. -/
def adjust_params (fresh : String) (string : CStr) (slot : CStr) : Option CStr :=
  match string with
  | none => none
  | some text =>
      match slot with
      | none => some (some (fresh ++ text))
      | some p => some (some (p ++ text))

/-- The inner loop `while (var)` of the external launcher: one argument. -/
def build_param (fresh : String) (env : Env) : WordPtr → CStr → Option CStr
  | .null, slot => some slot
  | .node string expand next_part _, slot =>
      if expand then
        match string with
        | none => none
        | some name =>
            build_param fresh env next_part (adjust_params_expand fresh (getenv env name) slot)
      else
        match adjust_params fresh string slot with
        | none => none
        | some slot1 => build_param fresh env next_part slot1

/-- The outer loop `while (current_word)` of the external launcher: `params`
is the array built so far, its length is `len`, and `fresh len` is what the
block that `malloc` returns for `params[len]` holds. -/
def build_params (fresh : Nat → String) (env : Env) : WordPtr → List CStr → Option (List CStr)
  | .null, params => some params
  | .node string expand next_part next_word, params =>
      match build_param (fresh params.length) env
          (.node string expand next_part next_word) none with
      | none => none
      | some slot => build_params fresh env next_word (params ++ [slot])

/-- Function `strscpy` of `cmd.c`: `none` is the error pointer `(char *)-1`. -/
def strscpy (src : String) (size : Int) : CStr :=
  if size ≤ 0 then none else some src

/-- What `execvp` reads from a `NULL`-terminated array: the strings before the
first `NULL`. -/
def argv_strings : List CStr → List String
  | [] => []
  | none :: _ => []
  | some a :: rest => a :: argv_strings rest

/-! ## Specification side of word expansion -/

/-- The spec's tagged fragment: literal text or a variable reference. -/
inductive Fragment where
  | literal (text : String)
  | var (name : String)
  deriving DecidableEq, Repr

/-- The text a fragment stands for: a literal verbatim, a variable's value, or
nothing when the variable is unset. -/
def Fragment.value (env : Env) : Fragment → String
  | .literal text => text
  | .var name => (getenv env name).getD ""

/-- Word expansion as the spec words it: the concatenation of the fragments'
texts in order. -/
def expand (env : Env) (fs : List Fragment) : String :=
  fs.foldl (fun acc f => acc ++ f.value env) ""

/-- The fragments of a chain in `next_part` order; `none` when some fragment
has no string. -/
def fragments : WordPtr → Option (List Fragment)
  | .null => some []
  | .node none _ _ _ => none
  | .node (some s) expand next_part _ =>
      match fragments next_part with
      | none => none
      | some fs => some ((if expand then Fragment.var s else Fragment.literal s) :: fs)

/-! ## The operating system: state, system-call log, oracles -/

/-- The three ways `cmd.c` opens a file: `O_RDONLY`,
`O_WRONLY | O_CREAT | O_TRUNC` and `O_WRONLY | O_CREAT | O_APPEND`. -/
inductive OpenMode where
  | rdonly
  | trunc
  | append
  deriving DecidableEq, Repr

/-- A file descriptor by what it refers to; `bad` is the `-1` of a failed
`open`. -/
inductive Fd where
  | bad
  | file (path : String) (mode : OpenMode)
  | pipe_read
  | pipe_write
  deriving DecidableEq, Repr

/-- One entry of the system-call log. -/
inductive Event where
  | fork
  | pipe
  | open (path : CStr) (mode : OpenMode) (fd : Fd)
  | dup2 (fd : Fd) (target : Nat)
  | close (fd : Fd)
  | chdir (path : String) (ok : Bool)
  | write (target : Nat) (text : String)
  | printf (text : String)
  | execvp (file : String) (argv : List String) (code : Option Nat)
  | exit (code : Nat)
  | waitpid (ok : Bool)
  deriving DecidableEq, Repr

/-- The state a process runs in: its environment and working directory, and
the log of the system calls made so far (by it, its ancestors and the children
it has waited for). -/
structure State where
  env : Env
  cwd : String
  trace : List Event
  deriving DecidableEq, Repr

/-- A block that the code takes from `malloc` and appends to with `strcat`
without clearing it: the one for `params[len]` in the external launcher, or the
one for `path` in a call of `get_path`, named by the branch of `parse_simple`
that makes the call (`cd`, `pwd`, or the block `in`, `out`, `err` of the
external launcher) and by the `type` asked for. -/
inductive Block where
  | param (len : Nat)
  | path (branch : String) (type : String)
  deriving DecidableEq, Repr

/-- The oracles of the operating system, each read at the current state.
`open_ok`: does this `open` succeed; `chdir`: the new working directory, or
`none` when `chdir` fails; `execvp`: `none` when `execvp` returns `-1`, else the
exit code with which the program that replaced the image terminates;
`waitpid_ok`: does this `waitpid` succeed; `pid`: the pid of a new child, less
one; `escape`: the exit code with which a forked child terminates when the
code lets it return into its caller instead of calling `exit`; `fresh`: the
bytes that the named block holds before its first `NUL` when `malloc` hands it
out. -/
structure World where
  open_ok : State → String → OpenMode → Bool
  chdir : State → String → Option String
  execvp : State → String → List String → Option Nat
  waitpid_ok : State → Bool
  pid : State → Nat
  escape : State → Int → Nat
  fresh : State → Block → String

/-- What running a piece of code in a process leads to: it returns `status` to
its caller, or the process terminates with an exit code, or the behaviour is
undefined. -/
inductive Outcome where
  | ret (status : Int) (st : State)
  | exited (code : Nat) (st : State)
  | undefined
  deriving DecidableEq, Repr

/-- Append an entry to the system-call log. -/
def State.log (st : State) (e : Event) : State :=
  { st with trace := st.trace ++ [e] }

/-- The parent after a child has run: its own environment and working
directory, and the log as the child left it. -/
def State.join (parent child : State) : State :=
  { parent with trace := child.trace }

/-- The exit code of `exit(n)`: the low eight bits. -/
def exit_code (n : Int) : Nat := (n % 256).toNat

/-- The wait status of a child that terminated with `code`. -/
def W_EXITCODE (code : Nat) : Int := (code : Int) * 256

/-- Macro `WEXITSTATUS`. -/
def WEXITSTATUS (status : Int) : Int := (status / 256) % 256

/-- Conversion of an `int` to the `bool` a function returns. -/
def to_bool (n : Int) : Int := if n ≠ 0 then 1 else 0

/-- Test `p != NULL` on a word pointer. -/
def WordPtr.nonnull : WordPtr → Bool
  | .null => false
  | .node _ _ _ _ => true

/-- System call `open`. -/
def sys_open (W : World) (st : State) (path : CStr) (mode : OpenMode) : Fd × State :=
  match path with
  | none => (Fd.bad, st.log (.open none mode Fd.bad))
  | some p =>
      if W.open_ok st p mode then (Fd.file p mode, st.log (.open (some p) mode (Fd.file p mode)))
      else (Fd.bad, st.log (.open (some p) mode Fd.bad))

/-- System call `waitpid(pid, &status, 0)`: the value returned, the status
word afterwards, and the state; `code` is the exit code of the child. -/
def sys_waitpid (W : World) (st : State) (pid : Int) (code : Nat) (status : Int) :
    Int × Int × State :=
  if W.waitpid_ok st then (pid, W_EXITCODE code, st.log (.waitpid true))
  else (-1, status, st.log (.waitpid false))

/-- Library call `exit(n)`. -/
def sys_exit (st : State) (n : Int) : Outcome :=
  .exited (exit_code n) (st.log (.exit (exit_code n)))

/-- A forked child whose code is `exit(f(...))`: when `f` returns, the child
exits with that status. -/
def exit_with : Outcome → Outcome
  | .ret status st => sys_exit st status
  | o => o

/-- A forked child that the code lets return into its caller: it terminates
with the code the oracle `escape` gives. -/
def escaped (W : World) : Outcome → Outcome
  | .ret status st => .exited (W.escape st status % 256) st
  | o => o

/-! ## Built-ins and the simple command: `shell_cd`, `shell_exit`, `parse_simple` -/

/-- Function `shell_cd`: the `bool` returned and the state afterwards; `none`
is undefined behaviour (`dir` is `NULL`). -/
def shell_cd (W : World) : WordPtr → State → Option (Int × State)
  | .null, _ => none
  | .node string _ _ next_word, st =>
      if next_word.nonnull then some (1, st)
      else
        match string with
        | none => some (0, st)
        | some d =>
            match W.chdir st d with
            | none => some (1, st.log (.chdir d false))
            | some cwd1 => some (0, { st.log (.chdir d true) with cwd := cwd1 })

/-- Function `shell_exit`. -/
def shell_exit (st : State) : Outcome := sys_exit st 0

/-- Library call `strcat` into the buffer `char name[1024]`: `none` when the
result and its terminator do not fit. -/
def strcat_1024 (dest src : String) : Option String :=
  if strlen dest + strlen src + 1 ≤ 1024 then some (dest ++ src) else none

/-- The loop `while (var)` of the assignment branch of `parse_simple`, filling
the buffer `name`. -/
def assign_loop (env : Env) : WordPtr → String → Option String
  | .null, name => some name
  | .node string expand next_part _, name =>
      if expand then
        match string with
        | none => none
        | some v =>
            match getenv env v with
            | some value =>
                match strcat_1024 name value with
                | none => none
                | some name1 => assign_loop env next_part name1
            | none =>
                match strcat_1024 name "" with
                | none => none
                | some name1 => assign_loop env next_part name1
      else
        match string with
        | none => none
        | some text =>
            match strcat_1024 name text with
            | none => none
            | some name1 => assign_loop env next_part name1

/-- One of the two blocks `if (s->out) ...` and `if (s->err) ...` of the `cd`
branch: create or empty the target. `some (Sum.inl st)` is the early
`return -1`, `some (Sum.inr st)` goes on, `none` is undefined behaviour. -/
def cd_touch (W : World) (s : simple_command_t) (target : WordPtr) (type : String)
    (st : State) : Option (State ⊕ State) :=
  if target.nonnull then
    match get_path (W.fresh st (.path "cd" type)) st.env s type with
    | none => none
    | some path =>
        match sys_open W st path OpenMode.trunc with
        | (Fd.bad, st1) => some (Sum.inl st1)
        | (fd, st1) => some (Sum.inr (st1.log (.close fd)))
  else some (Sum.inr st)

/-- The `cd` branch of `parse_simple`. -/
def parse_simple_cd (W : World) (s : simple_command_t) (st : State) : Outcome :=
  match cd_touch W s s.out "out" st with
  | none => .undefined
  | some (Sum.inl st1) => .ret (-1) st1
  | some (Sum.inr st1) =>
      match cd_touch W s s.err "err" st1 with
      | none => .undefined
      | some (Sum.inl st2) => .ret (-1) st2
      | some (Sum.inr st2) =>
          if s.params.nonnull then
            match shell_cd W s.params st2 with
            | none => .undefined
            | some (ret, st3) => .ret ret st3
          else .ret 0 st2

/-- The parent side of a `fork` in `parse_simple` and in the leaf case of
`parse_command`: `status = 0; waitpid(...); return WEXITSTATUS(status);`, the
child having run to `child`; a child that returned instead of exiting is an
escaped one. -/
def wait_child (W : World) (st : State) (child : Outcome) : Outcome :=
  match escaped W child with
  | .exited code stc =>
      match sys_waitpid W (st.join stc) ((W.pid st : Int) + 1) code 0 with
      | (_, status, st1) => .ret (WEXITSTATUS status) st1
  | _ => .undefined

/-- The child of the `pwd` branch. -/
def pwd_child (W : World) (s : simple_command_t) (st : State) : Outcome :=
  let redirected : Option (State ⊕ State) :=
    if s.out.nonnull then
      match get_path (W.fresh st (.path "pwd" "out")) st.env s "out" with
      | none => none
      | some path =>
          match sys_open W st path OpenMode.trunc with
          | (Fd.bad, st1) => some (Sum.inl st1)
          | (fd, st1) => some (Sum.inr ((st1.log (.dup2 fd 1)).log (.close fd)))
    else some (Sum.inr st)
  match redirected with
  | none => .undefined
  | some (Sum.inl st1) => .ret (-1) st1
  | some (Sum.inr st1) =>
      if strlen st1.cwd + strlen "\n" + 1 ≤ 1024 then
        shell_exit (st1.log (.write 1 (st1.cwd ++ "\n")))
      else .undefined

/-- The `pwd` branch of `parse_simple`. -/
def parse_simple_pwd (W : World) (s : simple_command_t) (st : State) : Outcome :=
  wait_child W st (pwd_child W s (st.log .fork))

/-- The block `if (s->in) ...` of the external launcher. -/
def redirect_in (W : World) (s : simple_command_t) (st : State) : Option State :=
  if s.in_.nonnull then
    match get_path (W.fresh st (.path "in" "in")) st.env s "in" with
    | none => none
    | some path =>
        match sys_open W st path OpenMode.rdonly with
        | (fd, st1) => some ((st1.log (.dup2 fd 0)).log (.close fd))
  else some st

/-- The block `if (s->out) ...` of the external launcher; the buffer `type`
holds `"out"` and is then overwritten by `strscpy(type, "err", 4)`. -/
def redirect_out (W : World) (H : Header) (s : simple_command_t) (st : State) :
    Option State :=
  if s.out.nonnull then
    match get_path (W.fresh st (.path "out" "out")) st.env s "out",
        get_path (W.fresh st (.path "out" "err")) st.env s ((strscpy "err" 4).getD "out") with
    | some pathout, some patherr =>
        let opened : Fd × State :=
          if s.err.nonnull && decide (patherr = pathout) then
            match sys_open W st pathout OpenMode.trunc with
            | (fd, st1) => sys_open W (st1.log (.close fd)) pathout OpenMode.append
          else if s.io_flags = H.IO_OUT_APPEND then sys_open W st pathout OpenMode.append
          else sys_open W st pathout OpenMode.trunc
        some ((opened.2.log (.dup2 opened.1 1)).log (.close opened.1))
    | _, _ => none
  else some st

/-- The block `if (s->err) ...` of the external launcher; the buffer `type`
holds `"err"` and is then overwritten by `strscpy(type, "out", 4)`. -/
def redirect_err (W : World) (H : Header) (s : simple_command_t) (st : State) :
    Option State :=
  if s.err.nonnull then
    match get_path (W.fresh st (.path "err" "err")) st.env s "err",
        get_path (W.fresh st (.path "err" "out")) st.env s ((strscpy "out" 4).getD "err") with
    | some patherr, some pathout =>
        let opened : Fd × State :=
          if decide (s.io_flags = H.IO_ERR_APPEND)
              || (s.out.nonnull && decide (pathout = patherr)) then
            sys_open W st patherr OpenMode.append
          else sys_open W st patherr OpenMode.trunc
        some ((opened.2.log (.dup2 opened.1 2)).log (.close opened.1))
    | _, _ => none
  else some st

/-- Call `execvp(file, argv)` and the lines after it: when the call returns,
the diagnostic is printed and the child exits with `1`. -/
def exec_or_fail (W : World) (st : State) (verb file : String) (argv : List String) :
    Outcome :=
  match W.execvp st file argv with
  | some code => .exited (code % 256) (st.log (.execvp file argv (some (code % 256))))
  | none =>
      sys_exit ((st.log (.execvp file argv none)).log
        (.printf ("Execution failed for \x27" ++ verb ++ "\x27\n"))) 1

/-- The child of the external launcher. -/
def external_child (W : World) (H : Header) (s : simple_command_t) (verb : String)
    (st : State) : Outcome :=
  match strscpy verb ((strlen verb : Int) + 1) with
  | none => .undefined
  | some p0 =>
      match build_params (fun len => W.fresh st (.param len)) st.env s.params [some p0] with
      | none => .undefined
      | some params =>
          match redirect_in W s st with
          | none => .undefined
          | some st1 =>
              match redirect_out W H s st1 with
              | none => .undefined
              | some st2 =>
                  match redirect_err W H s st2 with
                  | none => .undefined
                  | some st3 =>
                      if s.params.nonnull then
                        exec_or_fail W st3 verb verb (argv_strings (params ++ [none]))
                      else
                        match strscpy verb ((strlen verb : Int) + 1) with
                        | none => .undefined
                        | some cmd => exec_or_fail W st3 verb cmd [cmd]

/-- The external branch of `parse_simple`. -/
def parse_simple_external (W : World) (H : Header) (s : simple_command_t) (verb : String)
    (st : State) : Outcome :=
  wait_child W st (external_child W H s verb (st.log .fork))

/-- The chain `if (strcmp(s->verb->string, "cd") == 0) ... else ...` of
`parse_simple`: the built-ins and the external launcher. -/
def parse_simple_dispatch (W : World) (H : Header) (s : simple_command_t) (verb : String)
    (st : State) : Outcome :=
  if verb = "cd" then parse_simple_cd W s st
  else if verb = "exit" then shell_exit st
  else if verb = "quit" then shell_exit st
  else if verb = "pwd" then parse_simple_pwd W s st
  else parse_simple_external W H s verb st

/-- Function `parse_simple`: the test of `s->verb->string`, the environment
assignment, then the built-ins and the external launcher. -/
def parse_simple (W : World) (H : Header) (s : simple_command_t) (st : State) : Outcome :=
  match s.verb with
  | .null => .undefined
  | .node none _ _ _ => .ret 0 st
  | .node (some verb) _ next_part _ =>
      match next_part with
      | .null => parse_simple_dispatch W H s verb st
      | .node none _ _ _ => .undefined
      | .node (some second) _ rhs _ =>
          if second = "=" then
            if rhs.nonnull then
              match assign_loop st.env rhs "" with
              | none => .undefined
              | some name => .ret 0 { st with env := (setenv st.env verb name).2 }
            else .ret (-1) st
          else parse_simple_dispatch W H s verb st

/-! ## Operators: `run_in_parallel`, `run_on_pipe`, `parse_command` -/

/-- Function `run_in_parallel`; `child1` and `child2` are the calls
`parse_command(cmd1, ...)` and `parse_command(cmd2, ...)` of the two children. -/
def run_in_parallel (W : World) (child1 child2 : State → Outcome) (st : State) : Outcome :=
  let pid1 : Int := (W.pid st : Int) + 1
  match exit_with (child1 (st.log .fork)) with
  | .exited code1 stc1 =>
      let st1 := st.join stc1
      let pid2 : Int := (W.pid st1 : Int) + 1
      match exit_with (child2 (st1.log .fork)) with
      | .exited code2 stc2 =>
          let st2 := st1.join stc2
          match sys_waitpid W st2 pid1 code1 0 with
          | (ret1, _, st3) =>
              match sys_waitpid W st3 pid2 code2 0 with
              | (ret2, _, st4) =>
                  let ret := ret1 + ret2
                  if ret < 0 then .ret (to_bool 1) st4 else .ret (to_bool 0) st4
      | _ => .undefined
  | _ => .undefined

/-- Function `run_on_pipe`; `child1` and `child2` are the calls
`parse_command(cmd1, ...)` and `parse_command(cmd2, ...)` of the two children. -/
def run_on_pipe (W : World) (child1 child2 : State → Outcome) (st : State) : Outcome :=
  let st0 := st.log .pipe
  let pid : Int := (W.pid st0 : Int) + 1
  match exit_with (child1 ((((st0.log .fork).log (.close Fd.pipe_read))).log
      (.dup2 Fd.pipe_write 1))) with
  | .exited code1 stc1 =>
      let st1 := st0.join stc1
      let pid2 : Int := (W.pid st1 : Int) + 1
      match exit_with (child2 ((((st1.log .fork).log (.close Fd.pipe_write))).log
          (.dup2 Fd.pipe_read 0))) with
      | .exited code2 stc2 =>
          let st2 := ((st1.join stc2).log (.close Fd.pipe_read)).log (.close Fd.pipe_write)
          match sys_waitpid W st2 pid code1 0 with
          | (_, ret1, st3) =>
              match sys_waitpid W st3 pid2 code2 ret1 with
              | (_, ret2, st4) => .ret (to_bool (WEXITSTATUS ret2)) st4
      | _ => .undefined
  | _ => .undefined

/-- The test `verb && verb->string && strcmp(verb->string, name) == 0`. -/
def verb_is (s : simple_command_t) (name : String) : Bool :=
  match s.verb with
  | .node (some v) _ _ _ => decide (v = name)
  | _ => false

/-- The fast path of a leaf for `true` and for `false`: the child runs
`execvp(name, {name, NULL})` and, when that fails, goes on with `rest`; the
parent waits and returns the exit status. -/
def leaf_fast_path (W : World) (name : String) (rest : State → Outcome) (st : State) :
    Outcome :=
  let stc := st.log .fork
  wait_child W st
    (match W.execvp stc name [name] with
     | some code => .exited (code % 256) (stc.log (.execvp name [name] (some (code % 256))))
     | none => rest (stc.log (.execvp name [name] none)))

/-- The leaf case of `parse_command` from the test for `false` on. -/
def leaf_after_true (W : World) (H : Header) (s : simple_command_t) (st : State) : Outcome :=
  let simple : State → Outcome := fun st1 =>
    match parse_simple W H s st1 with
    | .ret status st2 => .ret (0 + status) st2
    | o => o
  if verb_is s "false" then leaf_fast_path W "false" simple st else simple st

/-- The leaf case (`OP_NONE`) of `parse_command`. -/
def parse_leaf (W : World) (H : Header) (s : simple_command_t) (st : State) : Outcome :=
  if verb_is s "true" then leaf_fast_path W "true" (leaf_after_true W H s) st
  else leaf_after_true W H s st

/-- Function `parse_command`. -/
def parse_command (W : World) (H : Header) : CommandPtr → State → Outcome
  | .null, st => .ret 0 st
  | .node op scmd cmd1 cmd2, st =>
      match op with
      | .OP_NONE =>
          match scmd with
          | none => .undefined
          | some s => parse_leaf W H s st
      | .OP_SEQUENTIAL =>
          match parse_command W H cmd1 st with
          | .ret _ st1 =>
              match parse_command W H cmd2 st1 with
              | .ret _ st2 => .ret 0 st2
              | o => o
          | o => o
      | .OP_PARALLEL =>
          run_in_parallel W (parse_command W H cmd1) (parse_command W H cmd2) st
      | .OP_CONDITIONAL_NZERO =>
          match parse_command W H cmd1 st with
          | .ret status1 st1 =>
              if status1 ≠ 0 then parse_command W H cmd2 st1 else .ret 0 st1
          | o => o
      | .OP_CONDITIONAL_ZERO =>
          match parse_command W H cmd1 st with
          | .ret status1 st1 =>
              if status1 = 0 then parse_command W H cmd2 st1 else .ret 0 st1
          | o => o
      | .OP_PIPE =>
          run_on_pipe W (parse_command W H cmd1) (parse_command W H cmd2) st
      | .OP_OTHER => .ret H.SHELL_EXIT st

/-! ## Auxiliary definitions and concrete inputs -/

/-- The fold of word expansion from a buffer `acc` on. -/
def expand_from (env : Env) (acc : String) (fs : List Fragment) : String :=
  fs.foldl (fun a f => a ++ f.value env) acc

/-- A single literal fragment. -/
def lit (text : String) : WordPtr := .node (some text) false .null .null

/-- A simple command with the given verb chain and nothing else. -/
def bare (verb : WordPtr) : simple_command_t :=
  { verb := verb, params := .null, in_ := .null, out := .null, err := .null, io_flags := 0 }

/-- A leaf of the command tree. -/
def leaf (s : simple_command_t) : CommandPtr := .node .OP_NONE (some s) .null .null

/-- A concrete operating system: every file can be opened and every directory
entered except `/nonexistent`; `true` and `echo` exit with 0, `false` with 1,
`ls` with 2, and no other program is found; every `waitpid` succeeds; every
block comes from `malloc` with a `NUL` as its first byte. -/
def demo_world : World where
  open_ok := fun _ path _ => decide (path ≠ "/nonexistent")
  chdir := fun _ path => if path = "/nonexistent" then none else some path
  execvp := fun _ file _ =>
    if file = "true" then some 0
    else if file = "echo" then some 0
    else if file = "false" then some 1
    else if file = "ls" then some 2
    else none
  waitpid_ok := fun _ => true
  pid := fun st => st.trace.length
  escape := fun _ _ => 0
  fresh := fun _ _ => ""

/-- The values of the header constants in the upstream `parser.h` and `cmd.h`:
`IO_OUT_APPEND = 0x01`, `IO_ERR_APPEND = 0x02`, `SHELL_EXIT = -100`. -/
def demo_header : Header := { IO_OUT_APPEND := 1, IO_ERR_APPEND := 2, SHELL_EXIT := -100 }

/-- A state with the given environment, working directory `/home`, empty log. -/
def demo_state (env : Env) : State := { env := env, cwd := "/home", trace := [] }

/-- The assignment `FOO=$BAR/baz`. -/
def foo_assignment : simple_command_t :=
  bare (.node (some "FOO") false
    (.node (some "=") false
      (.node (some "BAR") true (.node (some "/baz") false .null .null) .null) .null) .null)

/-- The number of words of an argument list, in `next_word` order. -/
def word_count : WordPtr → Nat
  | .null => 0
  | .node _ _ _ next_word => word_count next_word + 1

/-- The leaf `true`. -/
def true_leaf : CommandPtr := leaf (bare (lit "true"))

/-- The leaf `false`. -/
def false_leaf : CommandPtr := leaf (bare (lit "false"))

/-- The leaf `ls`. -/
def ls_leaf : CommandPtr := leaf (bare (lit "ls"))

/-- The command `cd` with the given argument list. -/
def cd_cmd (params : WordPtr) : simple_command_t := { bare (lit "cd") with params := params }

/-- The two argument words `a b`. -/
def two_words : WordPtr := .node (some "a") false .null (lit "b")

/-- The command `echo a > f 2> g` with the given `io_flags`. -/
def echo_out_err (out err : String) (io_flags : Int) : simple_command_t :=
  { verb := lit "echo", params := lit "a", in_ := .null, out := lit out, err := lit err,
    io_flags := io_flags }

/-- The command `echo < /nonexistent`. -/
def echo_from_missing : simple_command_t :=
  { bare (lit "echo") with in_ := lit "/nonexistent" }

/-- The assignment whose verb chain is `A=B`, `=`, `v`: the name has `=` in it. -/
def invalid_assignment : simple_command_t :=
  bare (.node (some "A=B") false (.node (some "=") false (lit "v") .null) .null)

/-- Stray bytes left in a block by its previous use. -/
def stale_bytes : String := "\x01\x02"

/-- The operating system `demo_world`, except that two blocks come from
`malloc` with stray bytes in them: the one for `params[3]`, and the one for
the first `get_path` call of the block `if (s->out)` of the external launcher. -/
def stale_world : World :=
  { demo_world with
    fresh := fun _ block =>
      if block = Block.param 3 ∨ block = Block.path "out" "out" then stale_bytes else "" }

/-- The three argument words `a b c`. -/
def three_words : WordPtr :=
  .node (some "a") false .null (.node (some "b") false .null (lit "c"))

/-- The command `echo a b c`. -/
def echo_abc : simple_command_t := { bare (lit "echo") with params := three_words }

/-- The command `echo a b > f 2> f`. -/
def echo_ab_merged : simple_command_t :=
  { verb := lit "echo", params := two_words, in_ := .null, out := lit "f", err := lit "f",
    io_flags := 0 }

/-! ## Lemmas on strings, the environment and word expansion -/

theorem strlen_append (a b : String) : strlen (a ++ b) = strlen a + strlen b := by
  cases a with
  | mk as =>
    cases b with
    | mk bs =>
      show String.utf8ByteSize (String.mk as ++ String.mk bs) = _
      have h : String.mk as ++ String.mk bs = String.mk (as ++ bs) := rfl
      rw [h]
      simp [strlen, String.utf8ByteSize_mk, String.utf8Len_append]

theorem expand_from_nil (env : Env) (acc : String) : expand_from env acc [] = acc := rfl

theorem expand_from_cons (env : Env) (acc : String) (f : Fragment) (fs : List Fragment) :
    expand_from env acc (f :: fs) = expand_from env (acc ++ f.value env) fs := rfl

theorem expand_eq_expand_from (env : Env) (fs : List Fragment) :
    expand env fs = expand_from env "" fs := rfl

theorem expand_from_append (env : Env) (acc : String) (fs : List Fragment) :
    expand_from env acc fs = acc ++ expand env fs := by
  induction fs generalizing acc with
  | nil => simp [expand_from, expand]
  | cons f fs ih =>
    have h1 : expand env (f :: fs) = expand_from env ("" ++ f.value env) fs := rfl
    rw [expand_from_cons, ih, h1, ih, String.empty_append, String.append_assoc]

theorem strlen_le_expand_from (env : Env) (acc : String) (fs : List Fragment) :
    strlen acc ≤ strlen (expand_from env acc fs) := by
  rw [expand_from_append, strlen_append]
  exact Nat.le_add_right _ _

theorem fragments_node_some {text : String} {e : Bool} {np nw : WordPtr} {fs : List Fragment}
    (h : fragments (.node (some text) e np nw) = some fs) :
    ∃ rest, fragments np = some rest ∧
      fs = (if e then Fragment.var text else Fragment.literal text) :: rest := by
  simp only [fragments] at h
  cases hnp : fragments np with
  | none => rw [hnp] at h; cases h
  | some rest =>
    rw [hnp] at h
    exact ⟨rest, rfl, (Option.some.inj h).symm⟩

theorem fragments_node_none {e : Bool} {np nw : WordPtr} :
    fragments (.node none e np nw) = none := rfl

theorem strcat_1024_fits (dest src : String) (h : strlen (dest ++ src) + 1 ≤ 1024) :
    strcat_1024 dest src = some (dest ++ src) := by
  rw [strlen_append] at h
  simp [strcat_1024, h]

theorem assign_loop_eq (env : Env) (w : WordPtr) :
    ∀ (acc : String) (fs : List Fragment), fragments w = some fs →
      strlen (expand_from env acc fs) + 1 ≤ 1024 →
      assign_loop env w acc = some (expand_from env acc fs) := by
  induction w with
  | null =>
    intro acc fs h _
    simp only [fragments, Option.some.injEq] at h
    subst h
    rfl
  | node string e np nw ihp _ =>
    intro acc fs h hfit
    cases string with
    | none => rw [fragments_node_none] at h; cases h
    | some text =>
      obtain ⟨rest, hrest, hfs⟩ := fragments_node_some h
      subst hfs
      rw [expand_from_cons] at hfit ⊢
      have hstep := strlen_le_expand_from env
        (acc ++ (if e = true then Fragment.var text else Fragment.literal text).value env) rest
      cases e with
      | true =>
        cases hv : getenv env text with
        | none =>
          have hval : (Fragment.var text).value env = "" := by simp [Fragment.value, hv]
          simp only [if_true, hval] at hfit hstep ⊢
          simp only [assign_loop, hv, if_true]
          rw [strcat_1024_fits acc "" (by omega)]
          exact ihp _ _ hrest hfit
        | some value =>
          have hval : (Fragment.var text).value env = value := by simp [Fragment.value, hv]
          simp only [if_true, hval] at hfit hstep ⊢
          simp only [assign_loop, hv, if_true]
          rw [strcat_1024_fits acc value (by omega)]
          exact ihp _ _ hrest hfit
      | false =>
        have hval : (Fragment.literal text).value env = text := rfl
        simp only [Bool.false_eq_true, if_false, hval] at hfit hstep ⊢
        simp only [assign_loop, Bool.false_eq_true, if_false]
        rw [strcat_1024_fits acc text (by omega)]
        exact ihp _ _ hrest hfit

theorem after_name_self (n v : List Char) : after_name n (n ++ '=' :: v) = some v := by
  induction n with
  | nil => simp [after_name]
  | cons a n ih => simp [after_name, ih]

theorem after_name_other (a : List Char) :
    ∀ (b e r : List Char), '=' ∉ a → '=' ∉ b → a ≠ b →
      after_name a e = some r → after_name b e = none := by
  induction a with
  | nil =>
    intro b e r _ hb hne h
    cases e with
    | nil => simp [after_name] at h
    | cons c rest =>
      have hc : c = '=' := by
        by_contra hc
        simp [after_name, hc] at h
      cases b with
      | nil => exact absurd rfl hne
      | cons y b1 =>
        have hy : y ≠ c := by
          intro hyc
          apply hb
          rw [hyc, hc]
          exact List.mem_cons_self _ _
        simp [after_name, hy]
  | cons x a1 ih =>
    intro b e r ha hb hne h
    cases e with
    | nil => simp [after_name] at h
    | cons c rest =>
      have hxc : x = c := by
        by_contra hxc
        simp [after_name, hxc] at h
      subst hxc
      have h1 : after_name a1 rest = some r := by simpa [after_name] using h
      have hx : x ≠ '=' := by
        intro hx
        apply ha
        rw [hx]
        exact List.mem_cons_self _ _
      cases b with
      | nil => simp [after_name, hx]
      | cons y b1 =>
        by_cases hy : y = x
        · subst hy
          have hne1 : a1 ≠ b1 := fun h2 => hne (by rw [h2])
          have ha1 : '=' ∉ a1 := fun h2 => ha (List.mem_cons_of_mem _ h2)
          have hb1 : '=' ∉ b1 := fun h2 => hb (List.mem_cons_of_mem _ h2)
          simpa [after_name] using ih b1 rest r ha1 hb1 hne1 h1
        · simp [after_name, hy]

theorem valid_name_spec {name : String} (h : valid_name name = true) :
    name ≠ "" ∧ '=' ∉ name.data := by
  simpa [valid_name] using h

theorem entry_data (name value : String) :
    (name ++ "=" ++ value).data = name.data ++ '=' :: value.data := by
  simp [String.data_append]

theorem entry_value_self (name value : String) :
    entry_value name (name ++ "=" ++ value) = some value := by
  simp [entry_value, entry_data, after_name_self]

theorem entry_value_other {name other entry value : String}
    (hname : valid_name name = true) (hother : valid_name other = true) (hne : other ≠ name)
    (h : entry_value name entry = some value) : entry_value other entry = none := by
  have hn := (valid_name_spec hname).2
  have ho := (valid_name_spec hother).2
  have hd : name.data ≠ other.data := fun hd => hne (String.ext hd.symm)
  cases ha : after_name name.data entry.data with
  | none => simp [entry_value, ha] at h
  | some r =>
    have := after_name_other name.data other.data entry.data r hn ho hd ha
    simp [entry_value, this]

theorem getenv_put_same (env : Env) (name value : String) (hname : valid_name name = true) :
    getenv (environ_put env name value) name = some value := by
  have hne := (valid_name_spec hname).1
  induction env with
  | nil => simp [environ_put, getenv, hne, entry_value_self]
  | cons entry rest ih =>
    cases hv : entry_value name entry with
    | none => simp [environ_put, getenv, hne, hv, ih]
    | some old => simp [environ_put, getenv, hne, hv, entry_value_self]

theorem getenv_put_other (env : Env) (name value other : String)
    (hname : valid_name name = true) (hother : valid_name other = true) (hne : other ≠ name) :
    getenv (environ_put env name value) other = getenv env other := by
  have hnew : entry_value other (name ++ "=" ++ value) = none :=
    entry_value_other hname hother hne (entry_value_self name value)
  have hone := (valid_name_spec hother).1
  induction env with
  | nil => simp [environ_put, getenv, hone, hnew]
  | cons entry rest ih =>
    cases hv : entry_value name entry with
    | none => simp [environ_put, getenv, hone, hv, ih]
    | some old =>
      have hold : entry_value other entry = none := entry_value_other hname hother hne hv
      simp [environ_put, getenv, hone, hv, hnew, hold]

theorem sys_open_env (W : World) (st : State) (path : CStr) (mode : OpenMode) :
    (sys_open W st path mode).2.env = st.env ∧ (sys_open W st path mode).2.cwd = st.cwd := by
  cases path with
  | none => exact ⟨rfl, rfl⟩
  | some p =>
    by_cases h : W.open_ok st p mode = true
    · simp [sys_open, h, State.log]
    · simp [sys_open, h, State.log]

theorem cd_touch_keeps (W : World) (s : simple_command_t) (target : WordPtr) (type : String)
    (st st1 : State) (h : cd_touch W s target type st = some (Sum.inr st1)) :
    st1.env = st.env ∧ st1.cwd = st.cwd := by
  unfold cd_touch at h
  by_cases hn : target.nonnull = true
  · simp only [hn, if_true] at h
    cases hp : get_path (W.fresh st (Block.path "cd" type)) st.env s type with
    | none => rw [hp] at h; cases h
    | some path =>
      simp only [hp] at h
      have hk := sys_open_env W st path OpenMode.trunc
      cases ho : sys_open W st path OpenMode.trunc with
      | mk fd st0 =>
        rw [ho] at h hk
        cases fd <;> simp at h <;> subst h <;> exact hk
  · simp only [hn] at h
    simp at h
    subst h
    exact ⟨rfl, rfl⟩

theorem word_count_pos_of_nonnull (w : WordPtr) (h : w.nonnull = true) : 0 < word_count w := by
  cases w with
  | null => simp [WordPtr.nonnull] at h
  | node _ _ _ _ => simp [word_count]

theorem word_count_null_of_not_nonnull (w : WordPtr) (h : ¬ w.nonnull = true) :
    word_count w = 0 := by
  cases w with
  | null => rfl
  | node _ _ _ _ => simp [WordPtr.nonnull] at h

theorem parse_simple_cd_reached (W : World) (H : Header) (s : simple_command_t) (st : State)
    (e : Bool) (np nw : WordPtr)
    (hverb : s.verb = .node (some "cd") e np nw)
    (hnp : np = .null ∨ ∃ second e2 rest w2, np = .node (some second) e2 rest w2 ∧ second ≠ "=") :
    parse_simple W H s st = parse_simple_cd W s st := by
  rcases hnp with hnull | ⟨second, e2, rest, w2, hnode, hne⟩
  · subst hnull
    simp [parse_simple, parse_simple_dispatch, hverb]
  · subst hnode
    simp [parse_simple, parse_simple_dispatch, hverb, hne]

/-! ## The claims -/

/-- C1 at the tree `true ; false`: evaluated alone after `true`, the command
`false` returns 1, but the `SEQUENTIAL` node returns 0. -/
theorem sequential_drops_status :
    parse_command demo_world demo_header (.node .OP_SEQUENTIAL none true_leaf false_leaf)
        (demo_state [])
      = .ret 0 { env := [], cwd := "/home",
                 trace := [.fork, .execvp "true" ["true"] (some 0), .waitpid true,
                   .fork, .execvp "false" ["false"] (some 1), .waitpid true] } ∧
    parse_command demo_world demo_header true_leaf (demo_state [])
      = .ret 0 { env := [], cwd := "/home",
                 trace := [.fork, .execvp "true" ["true"] (some 0), .waitpid true] } ∧
    parse_command demo_world demo_header false_leaf
        { env := [], cwd := "/home",
          trace := [.fork, .execvp "true" ["true"] (some 0), .waitpid true] }
      = .ret 1 { env := [], cwd := "/home",
                 trace := [.fork, .execvp "true" ["true"] (some 0), .waitpid true,
                   .fork, .execvp "false" ["false"] (some 1), .waitpid true] } := by
  decide

/-- C2 at the tree `true | ls` where `ls` exits with 2: the second child
terminates with exit code 2 (the entry `exit 2` of the log), both waits
succeed, and the `PIPE` node returns 1. -/
theorem pipe_collapses_exit_code :
    parse_command demo_world demo_header (.node .OP_PIPE none true_leaf ls_leaf) (demo_state [])
      = .ret 1 { env := [], cwd := "/home",
                 trace := [.pipe,
                   .fork, .close Fd.pipe_read, .dup2 Fd.pipe_write 1,
                   .fork, .execvp "true" ["true"] (some 0), .waitpid true, .exit 0,
                   .fork, .close Fd.pipe_write, .dup2 Fd.pipe_read 0,
                   .fork, .execvp "ls" ["ls"] (some 2), .waitpid true, .exit 2,
                   .close Fd.pipe_read, .close Fd.pipe_write, .waitpid true, .waitpid true] } ∧
    parse_command demo_world demo_header ls_leaf (demo_state [])
      = .ret 2 { env := [], cwd := "/home",
                 trace := [.fork, .execvp "ls" ["ls"] (some 2), .waitpid true] } := by
  decide

/-- C3: short-circuit law of the conditional operators. A `COND_ZERO` node
evaluates `cmd1` first; when `cmd1` returns a status, the node is `cmd2`
evaluated in the state `cmd1` left if that status is 0, and otherwise returns 0
in exactly the state `cmd1` left (nothing of `cmd2` happens, and the status of
`cmd1` is not passed on). A `COND_NZERO` node does the same with the test
reversed. When `cmd1` ends the process instead of returning, so does the node. -/
theorem conditional_short_circuit (W : World) (H : Header) (scmd : Option simple_command_t)
    (cmd1 cmd2 : CommandPtr) (st : State) :
    parse_command W H (.node .OP_CONDITIONAL_ZERO scmd cmd1 cmd2) st
        = (match parse_command W H cmd1 st with
           | .ret status1 st1 => if status1 = 0 then parse_command W H cmd2 st1 else .ret 0 st1
           | .exited code st1 => .exited code st1
           | .undefined => .undefined) ∧
      parse_command W H (.node .OP_CONDITIONAL_NZERO scmd cmd1 cmd2) st
        = (match parse_command W H cmd1 st with
           | .ret status1 st1 => if status1 ≠ 0 then parse_command W H cmd2 st1 else .ret 0 st1
           | .exited code st1 => .exited code st1
           | .undefined => .undefined) := by
  constructor
  · rw [parse_command]
    cases parse_command W H cmd1 st <;> rfl
  · rw [parse_command]
    cases parse_command W H cmd1 st <;> rfl

/-- C4: a `PARALLEL` node returns 0 whenever both `waitpid` calls of
`run_in_parallel` succeed, for every pair of exit codes `code1`, `code2` with
which the two children terminate. -/
theorem parallel_returns_zero (W : World) (H : Header) (scmd : Option simple_command_t)
    (cmd1 cmd2 : CommandPtr) (st stc1 stc2 : State) (code1 code2 : Nat)
    (hchild1 : exit_with (parse_command W H cmd1 (st.log .fork)) = .exited code1 stc1)
    (hchild2 : exit_with (parse_command W H cmd2 ((st.join stc1).log .fork))
        = .exited code2 stc2)
    (hwait1 : W.waitpid_ok ((st.join stc1).join stc2) = true)
    (hwait2 : W.waitpid_ok (((st.join stc1).join stc2).log (.waitpid true)) = true) :
    parse_command W H (.node .OP_PARALLEL scmd cmd1 cmd2) st
      = .ret 0 ((((st.join stc1).join stc2).log (.waitpid true)).log (.waitpid true)) := by
  have hsum : ¬ ((W.pid st : Int) + 1 + ((W.pid (st.join stc1) : Int) + 1) < 0) := by omega
  rw [parse_command]
  simp only [run_in_parallel, hchild1, hchild2, sys_waitpid, hwait1, hwait2, if_true, hsum,
    if_false]
  rfl

/-- C4 on the tree `false & ls`: the children exit with 1 and 2, both waits
succeed, the node returns 0. -/
theorem parallel_returns_zero_witness :
    parse_command demo_world demo_header (.node .OP_PARALLEL none false_leaf ls_leaf)
        (demo_state [])
      = .ret 0 { env := [], cwd := "/home",
                 trace := [.fork, .fork, .execvp "false" ["false"] (some 1), .waitpid true,
                   .exit 1, .fork, .fork, .execvp "ls" ["ls"] (some 2), .waitpid true, .exit 2,
                   .waitpid true, .waitpid true] } :=
  parallel_returns_zero demo_world demo_header none false_leaf ls_leaf (demo_state [])
    { env := [], cwd := "/home",
      trace := [.fork, .fork, .execvp "false" ["false"] (some 1), .waitpid true, .exit 1] }
    { env := [], cwd := "/home",
      trace := [.fork, .fork, .execvp "false" ["false"] (some 1), .waitpid true, .exit 1,
        .fork, .fork, .execvp "ls" ["ls"] (some 2), .waitpid true, .exit 2] }
    1 2 (by decide) (by decide) rfl rfl

/-- C5 at `echo a b c`, on a run where the block that `malloc` returns for the
third argument holds stray bytes: the word `c` expands to `c`, but the code
appends to the block without clearing it, and `execvp` receives the stray
bytes followed by `c` as the third argument. In the same way `get_path`
returns the stray bytes followed by `f` for the target `f`. -/
theorem expansion_keeps_stale_bytes :
    expand [] [Fragment.literal "c"] = "c" ∧
    parse_simple stale_world demo_header echo_abc (demo_state [])
      = .ret 0 { env := [], cwd := "/home",
                 trace := [.fork, .execvp "echo" ["echo", "a", "b", "\x01\x02c"] (some 0),
                   .waitpid true] } ∧
    expand [] [Fragment.literal "f"] = "f" ∧
    get_path stale_bytes [] echo_ab_merged "out" = some (some "\x01\x02f") := by
  decide

/-- C6: the built-in `cd`. For every simple command that reaches the `cd`
branch (first verb fragment `cd`, not an assignment) and whose declared output
and error targets are opened successfully, `parse_simple` returns a status that
is non-zero exactly when the argument list has more than one word or the
directory-change call on the argument fails; with no argument the status is 0
and the working directory and the environment are unchanged. -/
theorem cd_status (W : World) (H : Header) (s : simple_command_t) (st st1 st2 : State)
    (e : Bool) (np nw : WordPtr)
    (hverb : s.verb = .node (some "cd") e np nw)
    (hnp : np = .null ∨ ∃ second e2 rest w2, np = .node (some second) e2 rest w2 ∧ second ≠ "=")
    (hout : cd_touch W s s.out "out" st = some (Sum.inr st1))
    (herr : cd_touch W s s.err "err" st1 = some (Sum.inr st2)) :
    ∃ status st3, parse_simple W H s st = .ret status st3 ∧
      (status ≠ 0 ↔ (1 < word_count s.params ∨
        ∃ d e1 p1 w1, s.params = .node (some d) e1 p1 w1 ∧ W.chdir st2 d = none)) ∧
      (word_count s.params = 0 → status = 0 ∧ st3.cwd = st.cwd ∧ st3.env = st.env) := by
  have hk1 := cd_touch_keeps W s s.out "out" st st1 hout
  have hk2 := cd_touch_keeps W s s.err "err" st1 st2 herr
  rw [parse_simple_cd_reached W H s st e np nw hverb hnp]
  simp only [parse_simple_cd, hout, herr]
  cases hp : s.params with
  | null =>
    refine ⟨0, st2, by simp [WordPtr.nonnull], ?_, ?_⟩
    · simp [word_count]
    · intro _
      exact ⟨rfl, by rw [hk2.2, hk1.2], by rw [hk2.1, hk1.1]⟩
  | node string e1 p1 w1 =>
    have hnn : (WordPtr.node string e1 p1 w1).nonnull = true := rfl
    simp only [hnn, if_true, shell_cd]
    by_cases hw : w1.nonnull = true
    · refine ⟨1, st2, by simp [hw], ?_, ?_⟩
      · have := word_count_pos_of_nonnull w1 hw
        simp [word_count, this]
      · intro h0
        simp [word_count] at h0
    · have hc := word_count_null_of_not_nonnull w1 hw
      cases string with
      | none =>
        refine ⟨0, st2, by simp [hw], ?_, ?_⟩
        · simp [word_count, hc]
        · intro h0
          simp [word_count] at h0
      | some d =>
        cases hch : W.chdir st2 d with
        | none =>
          refine ⟨1, st2.log (.chdir d false), by simp [hw, hch], ?_, ?_⟩
          · simp [word_count, hc, hch]
          · intro h0
            simp [word_count] at h0
        | some cwd1 =>
          refine ⟨0, { st2.log (.chdir d true) with cwd := cwd1 }, by simp [hw, hch], ?_, ?_⟩
          · simp [word_count, hc, hch]
          · intro h0
            simp [word_count] at h0

/-- C6, the spec's examples: `cd a b` returns 1, `cd /nonexistent` returns 1,
`cd` without argument returns 0 and leaves the state as it is. -/
theorem cd_status_witness :
    (∃ status st3, parse_simple demo_world demo_header (cd_cmd two_words) (demo_state [])
        = .ret status st3 ∧
      (status ≠ 0 ↔ (1 < word_count (cd_cmd two_words).params ∨
        ∃ d e1 p1 w1, (cd_cmd two_words).params = .node (some d) e1 p1 w1 ∧
          demo_world.chdir (demo_state []) d = none)) ∧
      (word_count (cd_cmd two_words).params = 0 →
        status = 0 ∧ st3.cwd = (demo_state []).cwd ∧ st3.env = (demo_state []).env)) ∧
    parse_simple demo_world demo_header (cd_cmd two_words) (demo_state [])
      = .ret 1 (demo_state []) ∧
    parse_simple demo_world demo_header (cd_cmd (lit "/nonexistent")) (demo_state [])
      = .ret 1 { env := [], cwd := "/home", trace := [.chdir "/nonexistent" false] } ∧
    parse_simple demo_world demo_header (cd_cmd .null) (demo_state [])
      = .ret 0 (demo_state []) :=
  ⟨cd_status demo_world demo_header (cd_cmd two_words) (demo_state []) (demo_state [])
      (demo_state []) false .null .null rfl (Or.inl rfl) rfl rfl,
   by decide, by decide, by decide⟩

/-- C7 as stated fails for a name that `setenv` rejects: for the verb chain
`A=B`, `=`, `v` the code returns 0 and the environment is unchanged, so no
variable `A=B` with value `v` exists afterwards. -/
theorem assignment_invalid_name :
    parse_simple demo_world demo_header invalid_assignment (demo_state ["BAR=x"])
        = .ret 0 (demo_state ["BAR=x"]) ∧
      ¬ ∃ st1, parse_simple demo_world demo_header invalid_assignment (demo_state ["BAR=x"])
          = .ret 0 st1 ∧ getenv st1.env "A=B" = some "v" := by
  have h : parse_simple demo_world demo_header invalid_assignment (demo_state ["BAR=x"])
      = .ret 0 (demo_state ["BAR=x"]) := by decide
  refine ⟨h, ?_⟩
  rintro ⟨st1, h1, hg⟩
  rw [h] at h1
  injection h1 with _ hst
  subst hst
  revert hg
  decide

/-- C7, amended: environment assignment for a name `setenv` accepts. For every
simple command whose verb chain is `NAME`, `=`, then a non-empty right-hand
side, where `NAME` is not empty and has no `=` in it, the fragments of the
right-hand side all carry a string and its expansion fits the 1024-byte buffer
with its terminator, `parse_simple` returns 0 in a state that differs from the
initial one only in the environment (the system-call log is unchanged: no
`fork`, no other call), where `NAME` now has the expansion of the right-hand
side as its value and every other variable has the value it had. -/
theorem assignment_sets_variable (W : World) (H : Header) (s : simple_command_t) (st : State)
    (name : String) (e1 e2 : Bool) (rhs w1 w2 : WordPtr) (fs : List Fragment)
    (hverb : s.verb = .node (some name) e1 (.node (some "=") e2 rhs w2) w1)
    (hname : valid_name name = true)
    (hrhs : rhs.nonnull = true)
    (hfs : fragments rhs = some fs)
    (hfit : strlen (expand st.env fs) + 1 ≤ 1024) :
    parse_simple W H s st
        = .ret 0 { env := environ_put st.env name (expand st.env fs), cwd := st.cwd,
                   trace := st.trace } ∧
      getenv (environ_put st.env name (expand st.env fs)) name = some (expand st.env fs) ∧
      ∀ other, valid_name other = true → other ≠ name →
        getenv (environ_put st.env name (expand st.env fs)) other = getenv st.env other := by
  refine ⟨?_, getenv_put_same _ _ _ hname,
    fun other ho h => getenv_put_other _ _ _ _ hname ho h⟩
  have hloop := assign_loop_eq st.env rhs "" fs hfs hfit
  simp only [parse_simple, hverb, hrhs, if_true, hloop, setenv, hname]
  rfl

/-- C7, the spec's example: `FOO=$BAR/baz` with `BAR=x` sets `FOO` to `x/baz`,
returns 0 and makes no system call. -/
theorem assignment_sets_variable_witness :
    valid_name "FOO" = true ∧
    parse_simple demo_world demo_header foo_assignment (demo_state ["BAR=x"])
        = .ret 0 { env := ["BAR=x", "FOO=x/baz"], cwd := "/home", trace := [] } ∧
      getenv ["BAR=x", "FOO=x/baz"] "FOO" = some "x/baz" :=
  ⟨by decide,
   (assignment_sets_variable demo_world demo_header foo_assignment (demo_state ["BAR=x"])
      "FOO" false false (.node (some "BAR") true (.node (some "/baz") false .null .null) .null)
      .null .null [Fragment.var "BAR", Fragment.literal "/baz"] rfl (by decide) rfl rfl
      (by decide)).1,
   (assignment_sets_variable demo_world demo_header foo_assignment (demo_state ["BAR=x"])
      "FOO" false false (.node (some "BAR") true (.node (some "/baz") false .null .null) .null)
      .null .null [Fragment.var "BAR", Fragment.literal "/baz"] rfl (by decide) rfl rfl
      (by decide)).2.1⟩

/-- C8 at `echo a >> f 2>> g`, where `io_flags` carries both append flags
(`IO_OUT_APPEND | IO_ERR_APPEND = 3`): both targets are opened truncating. -/
theorem both_append_flags_truncate :
    Int.lor demo_header.IO_OUT_APPEND demo_header.IO_ERR_APPEND = 3 ∧
    parse_simple demo_world demo_header (echo_out_err "f" "g" 3) (demo_state [])
      = .ret 0 { env := [], cwd := "/home",
                 trace := [.fork,
                   .open (some "f") .trunc (Fd.file "f" .trunc),
                   .dup2 (Fd.file "f" .trunc) 1, .close (Fd.file "f" .trunc),
                   .open (some "g") .trunc (Fd.file "g" .trunc),
                   .dup2 (Fd.file "g" .trunc) 2, .close (Fd.file "g" .trunc),
                   .execvp "echo" ["echo", "a"] (some 0), .waitpid true] } := by
  decide

/-- C9 at `echo a b > f 2> f`, on a run where the block that `malloc` returns
for the first `get_path` call of the output block holds stray bytes: that call
returns the stray bytes followed by `f`, the comparison with the error path
`f` fails, and the merge branch is not taken. The output is opened truncating
under the stray name, `f` is opened once, appending, for descriptor 2, and `f`
is never truncated or bound to descriptor 1. -/
theorem merge_skipped_on_stale_path :
    parse_simple stale_world demo_header echo_ab_merged (demo_state [])
      = .ret 0 { env := [], cwd := "/home",
                 trace := [.fork,
                   .open (some "\x01\x02f") .trunc (Fd.file "\x01\x02f" .trunc),
                   .dup2 (Fd.file "\x01\x02f" .trunc) 1, .close (Fd.file "\x01\x02f" .trunc),
                   .open (some "f") .append (Fd.file "f" .append),
                   .dup2 (Fd.file "f" .append) 2, .close (Fd.file "f" .append),
                   .execvp "echo" ["echo", "a", "b"] (some 0), .waitpid true] } := by
  decide

/-- C10 at `echo < /nonexistent`: the `open` of the input fails, `dup2` and
`close` are called on the invalid descriptor, and `echo` is executed all the
same; the leaf returns 0. -/
theorem unopenable_input_still_runs :
    demo_world.open_ok ((demo_state []).log .fork) "/nonexistent" .rdonly = false ∧
    parse_simple demo_world demo_header echo_from_missing (demo_state [])
      = .ret 0 { env := [], cwd := "/home",
                 trace := [.fork,
                   .open (some "/nonexistent") .rdonly Fd.bad,
                   .dup2 Fd.bad 0, .close Fd.bad,
                   .execvp "echo" ["echo"] (some 0), .waitpid true] } := by
  decide

end MiniShell
